import Mathlib

set_option linter.unusedVariables false

/-!
Shallow embedding of the AnnePro2 flashing tool (`src/annepro2.rs`).

Bytes are modelled as natural numbers; `u8` casts are `% 256` where they can
wrap, and `u32` address arithmetic is `% 2 ^ 32` where it can wrap.  A Rust
panic is modelled by an explicit outcome (`none`, `LoopOut.panicked`,
`Outcome.panicked`), never by a value.  The HID transport is modelled by an
oracle (`Transport`) saying which exchanges succeed, and the firmware image
source by a list of read responses (`ReadResult`).
-/

/-- Routing targets with their `repr(u8)` discriminants (annepro2.rs lines 9-17). -/
inductive AP2Target
  | UsbHost
  | BleHost
  | McuMain
  | McuLed
  | McuBle
deriving DecidableEq

/-- The `target as u8` discriminant of an `AP2Target`. -/
def AP2Target.code : AP2Target → Nat
  | .UsbHost => 1
  | .BleHost => 2
  | .McuMain => 3
  | .McuLed => 4
  | .McuBle => 5

/-- Command categories with their `repr(u8)` discriminants (lines 19-28). -/
inductive L2Command
  | GLOBAL
  | FW
  | KEYBOARD
  | LED
  | MACRO
  | BLE
deriving DecidableEq

/-- The `cmd as u8` discriminant of an `L2Command`. -/
def L2Command.code : L2Command → Nat
  | .GLOBAL => 1
  | .FW => 2
  | .KEYBOARD => 16
  | .LED => 32
  | .MACRO => 48
  | .BLE => 64

/-- Sub-opcodes with their `repr(u8)` discriminants (lines 30-42); the
`IapWirteMemory` spelling is the source's. -/
inductive KeyCommand
  | Reserved
  | IapMode
  | IapGetMode
  | IapGetFwVersion
  | IapWirteMemory
  | IapWriteApFlag
  | IapEraseMemory
deriving DecidableEq

/-- The `cmd as u8` discriminant of a `KeyCommand`. -/
def KeyCommand.code : KeyCommand → Nat
  | .Reserved => 0
  | .IapMode => 1
  | .IapGetMode => 2
  | .IapGetFwVersion => 3
  | .IapWirteMemory => 49
  | .IapWriteApFlag => 50
  | .IapEraseMemory => 67

/-- Error kinds of the tool (lines 44-52). -/
inductive AP2FlashError
  | NoDeviceFound
  | MultipleDeviceFound
  | USBError
  | EraseError
  | FlashError
  | OtherError
deriving DecidableEq

/-- Vendor id constant (line 4). -/
def ANNEPRO2_VID : Nat := 0x04d9

/-- Product id of the C15 variant (line 6). -/
def PID_C15 : Nat := 0x8008

/-- Product id of the C18 variant (line 7). -/
def PID_C18 : Nat := 0x8009

/-- The four bytes of `transmute(addr.to_le())` for a `u32` address
(lines 182 and 190): the little-endian byte encoding of `addr % 2 ^ 32`. -/
def le_bytes (addr : Nat) : List Nat :=
  [addr % 256, addr / 256 % 256, addr / 65536 % 256, addr / 16777216 % 256]

/-- Frame encoder `write_to_target` (lines 212-231), restricted to the bytes
it assembles: header, payload, padding and report id.  Returns `none` exactly
where the source panics (`buffer.len() > 64`, line 223-225), in which case
nothing is handed to the transport; otherwise `some` of the full 65-byte
report, report-id byte first. -/
def write_to_target (target : AP2Target) (payload : List Nat) : Option (List Nat) :=
  let buffer : List Nat :=
    [0x7b, 0x10, ((target.code &&& 0xF) <<< 4) ||| AP2Target.UsbHost.code,
      0x10, payload.length % 256, 0, 0, 0x7d] ++ payload
  if 64 < buffer.length then none
  else some (0 :: (buffer ++ List.replicate (64 - buffer.length) 0))

/-- Payload assembled by `write_chunk` (lines 175-186) and handed to
`write_to_target`: category byte FW, opcode `IapWirteMemory`, the 4-byte
little-endian address, then the chunk bytes. -/
def write_chunk_payload (addr : Nat) (chunk : List Nat) : List Nat :=
  [L2Command.FW.code, KeyCommand.IapWirteMemory.code] ++ le_bytes addr ++ chunk

/-- `write_chunk` itself (lines 175-186): encode the payload as a frame. -/
def write_chunk (target : AP2Target) (addr : Nat) (chunk : List Nat) :
    Option (List Nat) :=
  write_to_target target (write_chunk_payload addr chunk)

/-- Payload assembled by `erase_device` (lines 188-195). -/
def erase_payload (addr : Nat) : List Nat :=
  [L2Command.FW.code, KeyCommand.IapEraseMemory.code] ++ le_bytes addr

/-- Payload assembled by `write_ap_flag` (lines 129-133). -/
def ap_flag_payload (flag : Nat) : List Nat :=
  [L2Command.FW.code, KeyCommand.IapWriteApFlag.code, flag % 256]

/-- The fixed raw 12-byte boot command of `boot_device` (lines 197-210),
sent unpadded. -/
def boot_raw : List Nat :=
  [0x00, 0x7b, 0x10, 0x31, 0x10, 0x03, 0x00, 0x00, 0x7d, 0x02, 0x01, 0x02]

/-- One answer of the firmware image source to one `file.read(&mut buffer)`
call: either the bytes placed into the buffer, or an `io::Error`. -/
inductive ReadResult
  | bytes (bs : List Nat)
  | ioErr
deriving DecidableEq

/-- Result of the `flash_file` loop: the chunk writes attempted (address and
the full chunk-sized buffer handed to `write_chunk`), the addresses whose
write failed (each reported by the `[WARNING]` print, line 152-157), and —
for a normal exit — the final value of `current_addr`.  `panicked` models the
`.expect("read file failure")` panic (line 148); `stuck` marks the response
list running out while the loop still wants to read (no counterpart in the
source, where the reader always answers) and is excluded by hypothesis in
every theorem below. -/
inductive LoopOut
  | done (writes : List (Nat × List Nat)) (warnings : List Nat) (finalAddr : Nat)
  | panicked (writes : List (Nat × List Nat)) (warnings : List Nat)
  | stuck
deriving DecidableEq

/-- The chunk size chosen by `flash_file` (lines 141-144). -/
def chunk_size : AP2Target → Nat
  | .McuBle => 32
  | _ => 48

/-- The loop of `flash_file` (lines 146-172), one recursive step per
`file.read` call.  `wOk i` tells whether the `i`-th `write_chunk` exchange
succeeds (the loop only prints on failure and continues, lines 152-165);
`size` is the number of bytes the read put into the zero-filled buffer of
length `C`, so the buffer handed to `write_chunk` is the bytes read padded
with zeros to length `C`.  `current_addr` advances by `size` (as `u32`,
line 166) whether or not the write succeeded, and the loop exits as soon as
`size < C` (lines 169-171). -/
def flashLoop (C : Nat) (wOk : Nat → Bool) :
    Nat → Nat → List ReadResult → LoopOut
  | _, _, [] => .stuck
  | _, _, .ioErr :: _ => .panicked [] []
  | i, addr, .bytes bs :: rest =>
    let size := min C bs.length
    let buffer := bs.take C ++ List.replicate (C - size) 0
    if 0 < size then
      let warn : List Nat := if wOk i then [] else [addr]
      let addr2 := (addr + size) % 2 ^ 32
      if size < C then .done [(addr, buffer)] warn addr2
      else
        match flashLoop C wOk (i + 1) addr2 rest with
        | .done ws warns fa => .done ((addr, buffer) :: ws) (warn ++ warns) fa
        | .panicked ws warns => .panicked ((addr, buffer) :: ws) (warn ++ warns)
        | .stuck => .stuck
    else
      if size < C then .done [] [] addr
      else flashLoop C wOk i addr rest

/-- `flash_file` (lines 135-173): pick the chunk size from the target and run
the loop from the base address. -/
def flash_file (wOk : Nat → Bool) (target : AP2Target) (base : Nat)
    (rs : List ReadResult) : LoopOut :=
  flashLoop (chunk_size target) wOk 0 base rs

/-- The response sequence of an image source that always returns the full
requested amount until the image of content `image` is exhausted: full
`C`-byte reads while at least `C` bytes remain, then one final short
(possibly empty) read of the remainder, at which point the loop stops. -/
def wellBehavedReads (C : Nat) (image : List Nat) : List ReadResult :=
  if h : 0 < C ∧ C ≤ image.length then
    .bytes (image.take C) :: wellBehavedReads C (image.drop C)
  else
    [.bytes image]
termination_by image.length
decreasing_by simp only [List.length_drop]; omega

/-- The chunk writes the loop performs on a well-behaved source: one write
per started chunk of the image, at consecutive chunk-aligned addresses, the
last one zero-padded to the chunk size. -/
def expectedWrites (C addr : Nat) (image : List Nat) : List (Nat × List Nat) :=
  if h : 0 < C then
    if h0 : image.length = 0 then []
    else if hlt : image.length < C then
      [(addr, image ++ List.replicate (C - image.length) 0)]
    else (addr, image.take C) :: expectedWrites C (addr + C) (image.drop C)
  else []
termination_by image.length
decreasing_by simp only [List.length_drop]; omega

/-- The warning addresses the loop records on a well-behaved source, given
the per-write success oracle `wOk` starting at write index `i`. -/
def expectedWarnings (wOk : Nat → Bool) (C i addr : Nat) (image : List Nat) :
    List Nat :=
  if h : 0 < C then
    if h0 : image.length = 0 then []
    else if hlt : image.length < C then
      (if wOk i then [] else [addr])
    else
      (if wOk i then [] else [addr]) ++
        expectedWarnings wOk C (i + 1) (addr + C) (image.drop C)
  else []
termination_by image.length
decreasing_by simp only [List.length_drop]; omega

theorem flashLoop_wellBehaved (C : Nat) (wOk : Nat → Bool) :
    ∀ (n : Nat) (image : List Nat), image.length ≤ n → ∀ (i addr : Nat),
      0 < C → addr + image.length < 2 ^ 32 →
      flashLoop C wOk i addr (wellBehavedReads C image) =
        .done (expectedWrites C addr image)
          (expectedWarnings wOk C i addr image) (addr + image.length) := by
  intro n
  induction n with
  | zero =>
    intro image hlen i addr hC hov
    have himg : image = [] := List.eq_nil_of_length_eq_zero (by omega)
    subst himg
    rw [wellBehavedReads]
    simp only [List.length_nil, hC, true_and]
    rw [dif_neg (by omega)]
    rw [flashLoop]
    simp only [List.length_nil, Nat.min_zero, Nat.lt_irrefl, if_false,
      List.take_nil, Nat.sub_zero]
    rw [if_pos hC]
    rw [expectedWrites, expectedWarnings]
    simp [hC]
  | succ n ih =>
    intro image hlen i addr hC hov
    by_cases h0 : image.length = 0
    · have himg : image = [] := List.eq_nil_of_length_eq_zero h0
      subst himg
      rw [wellBehavedReads]
      rw [dif_neg (by omega)]
      rw [flashLoop]
      simp only [List.length_nil, Nat.min_zero, Nat.lt_irrefl, if_false,
        List.take_nil, Nat.sub_zero]
      rw [if_pos hC]
      rw [expectedWrites, expectedWarnings]
      simp [hC]
    · by_cases hlt : image.length < C
      · -- final short read: one padded write, then stop
        rw [wellBehavedReads]
        rw [dif_neg (by omega)]
        rw [flashLoop]
        have hsz : min C image.length = image.length := by omega
        simp only [hsz]
        rw [if_pos (by omega), if_pos hlt]
        rw [expectedWrites, expectedWarnings]
        rw [dif_pos hC, dif_pos hC, dif_neg h0, dif_neg h0, dif_pos hlt,
          dif_pos hlt]
        have htk : image.take C = image := List.take_of_length_le (by omega)
        rw [htk, Nat.mod_eq_of_lt hov]
      · -- full read: write the chunk and continue
        push_neg at hlt
        rw [wellBehavedReads]
        rw [dif_pos ⟨hC, hlt⟩]
        rw [flashLoop]
        have hsz : min C (image.take C).length = C := by
          simp only [List.length_take]; omega
        simp only [hsz]
        rw [if_pos hC, if_neg (by omega)]
        rw [Nat.mod_eq_of_lt (show addr + C < 2 ^ 32 by omega)]
        have hrec := ih (image.drop C)
          (by simp only [List.length_drop]; omega) (i + 1)
          (addr + C) hC
          (by simp only [List.length_drop]; omega)
        rw [hrec]
        have hbuf : (image.take C).take C ++ List.replicate (C - C) 0 =
            image.take C := by
          rw [Nat.sub_self, List.replicate_zero, List.append_nil]
          exact List.take_of_length_le (by simp only [List.length_take]; omega)
        conv_rhs => rw [expectedWrites, expectedWarnings]
        rw [dif_pos hC, dif_pos hC, dif_neg h0, dif_neg h0,
          dif_neg (show ¬image.length < C by omega),
          dif_neg (show ¬image.length < C by omega)]
        dsimp only
        rw [hbuf]
        simp only [List.length_drop]
        congr 1
        omega

theorem chunk_size_pos (target : AP2Target) : 0 < chunk_size target := by
  cases target <;> simp [chunk_size]

theorem expectedWrites_length (C : Nat) (hC : 0 < C) :
    ∀ (n : Nat) (image : List Nat), image.length ≤ n → ∀ (addr : Nat),
      (expectedWrites C addr image).length =
        (if image.length % C = 0 then image.length / C
         else image.length / C + 1) := by
  intro n
  induction n with
  | zero =>
    intro image hlen addr
    have h0 : image.length = 0 := by omega
    rw [expectedWrites, dif_pos hC, dif_pos h0]
    simp [h0, Nat.zero_div]
  | succ n ih =>
    intro image hlen addr
    by_cases h0 : image.length = 0
    · rw [expectedWrites, dif_pos hC, dif_pos h0]
      simp [h0, Nat.zero_div]
    · by_cases hlt : image.length < C
      · rw [expectedWrites, dif_pos hC, dif_neg h0, dif_pos hlt]
        rw [Nat.mod_eq_of_lt hlt, if_neg h0, Nat.div_eq_of_lt hlt]
        rfl
      · push_neg at hlt
        rw [expectedWrites, dif_pos hC, dif_neg h0,
          dif_neg (show ¬image.length < C by omega)]
        rw [List.length_cons,
          ih (image.drop C) (by simp only [List.length_drop]; omega) (addr + C)]
        simp only [List.length_drop]
        obtain ⟨M, hM⟩ : ∃ M, image.length = M + C := ⟨image.length - C, by omega⟩
        rw [hM, Nat.add_mod_right, Nat.add_div_right _ hC]
        have hMC : M + C - C = M := by omega
        rw [hMC]
        by_cases hm : M % C = 0
        · rw [if_pos hm, if_pos hm]
        · rw [if_neg hm, if_neg hm]

theorem expectedWrites_get (C : Nat) (hC : 0 < C) :
    ∀ (n : Nat) (image : List Nat), image.length ≤ n → ∀ (addr j : Nat)
      (hj : j < (expectedWrites C addr image).length),
      (expectedWrites C addr image)[j] =
        (addr + j * C,
         (image.drop (j * C)).take C ++
           List.replicate (C - min C (image.length - j * C)) 0) := by
  intro n
  induction n with
  | zero =>
    intro image hlen addr j hj
    have h0 : image.length = 0 := by omega
    rw [expectedWrites, dif_pos hC, dif_pos h0] at hj
    exact absurd hj (by simp)
  | succ n ih =>
    intro image hlen addr j hj
    by_cases h0 : image.length = 0
    · rw [expectedWrites, dif_pos hC, dif_pos h0] at hj
      exact absurd hj (by simp)
    · by_cases hlt : image.length < C
      · have hws : expectedWrites C addr image =
            [(addr, image ++ List.replicate (C - image.length) 0)] := by
          rw [expectedWrites, dif_pos hC, dif_neg h0, dif_pos hlt]
        have hj1 : j < 1 := by
          have h := hj; rw [hws] at h; simpa using h
        have hj0 : j = 0 := by omega
        subst hj0
        simp only [hws, List.getElem_cons_zero, Nat.zero_mul, Nat.add_zero,
          Nat.sub_zero, List.drop_zero]
        rw [List.take_of_length_le (show image.length ≤ C by omega)]
        rw [min_eq_right (show image.length ≤ C by omega)]
      · push_neg at hlt
        have hws : expectedWrites C addr image =
            (addr, image.take C) ::
              expectedWrites C (addr + C) (image.drop C) := by
          rw [expectedWrites, dif_pos hC, dif_neg h0,
            dif_neg (show ¬image.length < C by omega)]
        cases j with
        | zero =>
          simp only [hws, List.getElem_cons_zero, Nat.zero_mul, Nat.add_zero,
            Nat.sub_zero, List.drop_zero]
          rw [min_eq_left hlt]
          simp
        | succ j =>
          have hjr : j < (expectedWrites C (addr + C) (image.drop C)).length := by
            have h := hj; rw [hws] at h; simpa using h
          have hrec := ih (image.drop C)
            (by simp only [List.length_drop]; omega) (addr + C) j hjr
          simp only [hws, List.getElem_cons_succ]
          rw [hrec]
          have hdd : (image.drop C).drop (j * C) = image.drop ((j + 1) * C) := by
            rw [List.drop_drop]
            congr 1
            ring
          have haddr : addr + C + j * C = addr + (j + 1) * C := by ring
          have hlen2 : (image.drop C).length - j * C =
              image.length - (j + 1) * C := by
            simp only [List.length_drop]
            rw [Nat.sub_sub]
            congr 1
            ring
          rw [hdd, haddr, hlen2]

theorem expectedWarnings_mem (C : Nat) (wOk : Nat → Bool) (hC : 0 < C) :
    ∀ (n : Nat) (image : List Nat), image.length ≤ n → ∀ (i addr j : Nat),
      j < (expectedWrites C addr image).length → wOk (i + j) = false →
      addr + j * C ∈ expectedWarnings wOk C i addr image := by
  intro n
  induction n with
  | zero =>
    intro image hlen i addr j hj hw
    have h0 : image.length = 0 := by omega
    rw [expectedWrites, dif_pos hC, dif_pos h0] at hj
    exact absurd hj (by simp)
  | succ n ih =>
    intro image hlen i addr j hj hw
    by_cases h0 : image.length = 0
    · rw [expectedWrites, dif_pos hC, dif_pos h0] at hj
      exact absurd hj (by simp)
    · by_cases hlt : image.length < C
      · rw [expectedWrites, dif_pos hC, dif_neg h0, dif_pos hlt] at hj
        have hj0 : j = 0 := by simpa using hj
        subst hj0
        rw [expectedWarnings, dif_pos hC, dif_neg h0, dif_pos hlt]
        rw [if_neg (by simpa using hw)]
        simp
      · push_neg at hlt
        rw [expectedWrites, dif_pos hC, dif_neg h0,
          dif_neg (show ¬image.length < C by omega)] at hj
        rw [expectedWarnings, dif_pos hC, dif_neg h0,
          dif_neg (show ¬image.length < C by omega)]
        cases j with
        | zero =>
          rw [if_neg (by simpa using hw)]
          simp
        | succ j =>
          have hjr : j < (expectedWrites C (addr + C) (image.drop C)).length := by
            simpa using hj
          have hw2 : wOk (i + 1 + j) = false := by
            have : i + 1 + j = i + (j + 1) := by omega
            rw [this]; exact hw
          have hrec := ih (image.drop C)
            (by simp only [List.length_drop]; omega) (i + 1) (addr + C) j hjr hw2
          have haddr : addr + C + j * C = addr + (j + 1) * C := by ring
          rw [haddr] at hrec
          exact List.mem_append_right _ hrec


/-- The fields of a `hidapi::DeviceInfo` that `fetch_devices` inspects, plus
an opaque path used to open the handle (annepro2.rs line 105). -/
structure DeviceInfo where
  vendor_id : Nat
  product_id : Nat
  interface_number : Int
  path : Nat
deriving DecidableEq

/-- The closure of `anne_devices.iter().find(...)` (lines 122-125): a device
is flashable when it is the C15 variant on interface 1, or the C18 variant on
any interface. -/
def flashable (dev : DeviceInfo) : Bool :=
  (dev.product_id == PID_C15 && dev.interface_number == 1) ||
    dev.product_id == PID_C18

/-- `fetch_devices` (lines 105-127): filter the enumerated devices to the
vendor id, and pick the first flashable one, if any. -/
def fetch_devices (devs : List DeviceInfo) :
    List DeviceInfo × Option DeviceInfo :=
  let anne_devices := devs.filter (fun dev => dev.vendor_id == ANNEPRO2_VID)
  (anne_devices, anne_devices.find? flashable)

/-- Success oracle for the external HID exchanges of one run: whether the
open/configure calls succeed, whether the erase exchange succeeds, whether
the `i`-th chunk-write exchange succeeds, whether the AP-flag exchange
succeeds, and whether the raw boot write succeeds. -/
structure Transport where
  openOk : Bool
  eraseOk : Bool
  writeOk : Nat → Bool
  flagOk : Bool
  bootOk : Bool

/-- A command handed to the device, with the exact payload bytes built by the
source (for framed commands, the payload handed to `write_to_target`; for the
boot command, the raw unpadded report). -/
inductive Event
  | eraseCmd (target : AP2Target) (payload : List Nat)
  | writeCmd (target : AP2Target) (payload : List Nat)
  | flagCmd (target : AP2Target) (payload : List Nat)
  | bootCmd (raw : List Nat)
deriving DecidableEq

/-- Messages of the `.expect(..)` panics reachable from `flash_firmware`. -/
inductive PanicMsg
  | noDeviceFound
  | unableToOpenDevice
  | readFileFailure
deriving DecidableEq

/-- How a `flash_firmware` run ends: normal return, a typed error value, a
panic, or the modelling-only `stuck` marker inherited from `LoopOut.stuck`. -/
inductive Outcome
  | ok
  | err (e : AP2FlashError)
  | panicked (msg : PanicMsg)
  | stuck
deriving DecidableEq

/-- Observable result of one `flash_firmware` run: the commands handed to the
device in order, the chunk addresses reported by `[WARNING]` prints, and how
the run ended. -/
structure RunResult where
  trace : List Event
  warnings : List Nat
  outcome : Outcome
deriving DecidableEq

/-- `boot_device` (lines 197-210): sends the raw boot report, prints the
write error if any, and returns `Ok(())` *unconditionally* — a failed boot
write is swallowed, never propagated. -/
def boot_device (bootOk : Bool) : Except Unit Unit :=
  Except.ok ()

/-- `flash_firmware` (lines 54-103).  Discovery runs on the `HidApi`'s device
list; the list is cached in the api handle created on line 60, so the second
`fetch_devices` call (line 75) sees the same list as the first (line 62) —
the 10-second countdown only delays, it cannot change `devs`.  A missing
flashable device panics (`.expect("No device found.")`, line 77); open
failures panic (lines 79-84).  The erase failure and AP-flag failure are both
mapped to `AP2FlashError::USBError` (lines 89 and 94); `boot_device` cannot
fail (see its doc), so the `map_err` on lines 97-100 is dead code. -/
def flash_firmware (devs : List DeviceInfo) (t : Transport) (target : AP2Target)
    (base : Nat) (rs : List ReadResult) (boot : Bool) : RunResult :=
  let fd1 := fetch_devices devs
  let fd2 := fetch_devices devs
  match fd2.2 with
  | none => ⟨[], [], .panicked .noDeviceFound⟩
  | some _dev =>
    if t.openOk = false then ⟨[], [], .panicked .unableToOpenDevice⟩
    else
      let tr0 : List Event := [.eraseCmd target (erase_payload base)]
      if t.eraseOk = false then ⟨tr0, [], .err .USBError⟩
      else
        match flash_file t.writeOk target base rs with
        | .stuck => ⟨tr0, [], .stuck⟩
        | .panicked ws warns =>
          ⟨tr0 ++ ws.map (fun w => .writeCmd target (write_chunk_payload w.1 w.2)),
            warns, .panicked .readFileFailure⟩
        | .done ws warns _fa =>
          let tr1 := tr0 ++
            ws.map (fun w => Event.writeCmd target (write_chunk_payload w.1 w.2)) ++
            [Event.flagCmd .McuMain (ap_flag_payload 2)]
          if t.flagOk = false then ⟨tr1, warns, .err .USBError⟩
          else if boot then
            match boot_device t.bootOk with
            | .ok _ => ⟨tr1 ++ [Event.bootCmd boot_raw], warns, .ok⟩
            | .error _ => ⟨tr1 ++ [Event.bootCmd boot_raw], warns, .err .USBError⟩
          else ⟨tr1, warns, .ok⟩

/-- Claim C1: for every routing target and payload of at most 56 bytes the
frame encoder produces exactly the 65-byte report: byte 0 is the report id 0,
bytes 1-8 are `7b 10 RR 10 LL 00 00 7d` with `RR` the target discriminant
shifted into the high nibble or-ed with the USB-host discriminant 1 in the
low nibble and `LL` the payload byte length, the payload follows verbatim,
and all remaining bytes up to 65 are zero. -/
theorem write_to_target_format (target : AP2Target) (payload : List Nat)
    (h : payload.length ≤ 56) :
    write_to_target target payload =
      some (0 :: ([0x7b, 0x10, (target.code <<< 4) ||| AP2Target.UsbHost.code,
          0x10, payload.length, 0, 0, 0x7d] ++
        payload ++ List.replicate (56 - payload.length) 0)) ∧
    ∀ r, write_to_target target payload = some r → r.length = 65 := by
  have hrr : ((target.code &&& 0xF) <<< 4) ||| AP2Target.UsbHost.code =
      (target.code <<< 4) ||| AP2Target.UsbHost.code := by
    cases target <;> rfl
  have hmod : payload.length % 256 = payload.length :=
    Nat.mod_eq_of_lt (by omega)
  have hfmt : write_to_target target payload =
      some (0 :: ([0x7b, 0x10, (target.code <<< 4) ||| AP2Target.UsbHost.code,
          0x10, payload.length, 0, 0, 0x7d] ++
        payload ++ List.replicate (56 - payload.length) 0)) := by
    simp only [write_to_target, hrr, hmod]
    rw [if_neg (by simp only [List.length_append, List.length_cons,
      List.length_nil]; omega)]
    have h56 : 64 - ([0x7b, 0x10, (target.code <<< 4) ||| AP2Target.UsbHost.code,
        0x10, payload.length, 0, 0, 0x7d] ++ payload).length =
        56 - payload.length := by
      simp only [List.length_append, List.length_cons, List.length_nil]
      omega
    rw [h56]
  refine ⟨hfmt, ?_⟩
  intro r hr
  rw [hfmt] at hr
  injection hr with hr
  subst hr
  simp only [List.length_cons, List.length_append, List.length_replicate,
    List.length_nil]
  omega

/-- Closed instance of `write_to_target_format`: target Main MCU, payload
`[1, 2, 3]`. -/
theorem write_to_target_format_witness :
    ([1, 2, 3] : List Nat).length ≤ 56 ∧
    (write_to_target AP2Target.McuMain [1, 2, 3] =
      some (0 :: ([0x7b, 0x10,
          (AP2Target.McuMain.code <<< 4) ||| AP2Target.UsbHost.code,
          0x10, ([1, 2, 3] : List Nat).length, 0, 0, 0x7d] ++
        [1, 2, 3] ++ List.replicate (56 - ([1, 2, 3] : List Nat).length) 0)) ∧
     ∀ r, write_to_target AP2Target.McuMain [1, 2, 3] = some r →
       r.length = 65) :=
  ⟨by decide, write_to_target_format AP2Target.McuMain [1, 2, 3] (by decide)⟩

/-- Claim C6: if the 8-byte header plus the payload exceeds 64 bytes (payload
longer than 56 bytes) the frame encoder aborts — the model returns `none`,
matching the source's panic before any transport write, so no truncated frame
is ever transmitted; for payloads of at most 56 bytes this branch is
unreachable and a frame is produced. -/
theorem write_to_target_oversize (target : AP2Target) (payload : List Nat) :
    (56 < payload.length → write_to_target target payload = none) ∧
    (payload.length ≤ 56 → ∃ r, write_to_target target payload = some r) := by
  constructor
  · intro h
    simp only [write_to_target]
    rw [if_pos (by simp only [List.length_append, List.length_cons,
      List.length_nil]; omega)]
  · intro h
    simp only [write_to_target]
    rw [if_neg (by simp only [List.length_append, List.length_cons,
      List.length_nil]; omega)]
    exact ⟨_, rfl⟩

/-- Closed instance of `write_to_target_oversize`: a 57-byte payload is
refused, an empty payload is encoded. -/
theorem write_to_target_oversize_witness :
    write_to_target AP2Target.McuMain (List.replicate 57 1) = none ∧
    ∃ r, write_to_target AP2Target.McuMain [] = some r :=
  ⟨(write_to_target_oversize AP2Target.McuMain (List.replicate 57 1)).1
      (by decide),
   (write_to_target_oversize AP2Target.McuMain []).2 (by decide)⟩

/-- Claim C7 counterexample: at address 0 with an empty chunk, the payload
handed to the frame encoder is `[0x02, 0x31, 0, 0, 0, 0]`: it starts with the
category byte FW (0x02), not with the opcode byte 0x31, so the claimed shape
`opcode byte, little-endian address, chunk bytes, nothing else` is wrong. -/
theorem write_chunk_payload_counterexample :
    write_chunk_payload 0 [] ≠ [0x31, 0, 0, 0, 0] ∧
    write_chunk_payload 0 [] = [0x02, 0x31, 0, 0, 0, 0] := by
  constructor <;> decide

/-- Claim C7 amended: the payload handed to the frame encoder for a
write-memory command is the category byte FW (0x02), then the opcode byte
0x31, then the 4-byte little-endian encoding of the address, then the raw
chunk bytes, and nothing else; the four address bytes decode back to the
address modulo `2 ^ 32`. -/
theorem write_chunk_payload_spec (addr : Nat) (chunk : List Nat) :
    write_chunk_payload addr chunk =
      [0x02, 0x31, addr % 256, addr / 256 % 256, addr / 65536 % 256,
        addr / 16777216 % 256] ++ chunk ∧
    (le_bytes addr).length = 4 ∧
    addr % 256 + 256 * (addr / 256 % 256) + 65536 * (addr / 65536 % 256) +
      16777216 * (addr / 16777216 % 256) = addr % 2 ^ 32 := by
  refine ⟨rfl, rfl, ?_⟩
  omega

/-- Claim C10: if the image source answers some read with an error after any
number of full-chunk reads, the `flash_file` loop panics right there (the
`.expect("read file failure")` of the source, `LoopOut.panicked` in the
model): no typed error is returned, no warning recorded for it, and exactly
the chunks of the preceding reads were written — nothing from the rest of the
source. -/
theorem flash_file_read_error (wOk : Nat → Bool) (target : AP2Target)
    (base : Nat) (rs1 rs2 : List ReadResult)
    (h1 : ∀ r ∈ rs1, ∃ bs, r = ReadResult.bytes bs ∧
      bs.length = chunk_size target) :
    ∃ ws warns,
      flash_file wOk target base (rs1 ++ ReadResult.ioErr :: rs2) =
        LoopOut.panicked ws warns ∧
      ws.length = rs1.length := by
  have hC : 0 < chunk_size target := chunk_size_pos target
  suffices hgen : ∀ (l : List ReadResult),
      (∀ r ∈ l, ∃ bs, r = ReadResult.bytes bs ∧
        bs.length = chunk_size target) →
      ∀ (i addr : Nat), ∃ ws warns,
        flashLoop (chunk_size target) wOk i addr
            (l ++ ReadResult.ioErr :: rs2) =
          LoopOut.panicked ws warns ∧ ws.length = l.length by
    exact hgen rs1 h1 0 base
  intro l
  induction l with
  | nil =>
    intro _ i addr
    exact ⟨[], [], rfl, rfl⟩
  | cons r l ih =>
    intro hmem i addr
    obtain ⟨bs, hr, hbs⟩ := hmem r (List.mem_cons_self r l)
    subst hr
    obtain ⟨ws, warns, hrec, hlen⟩ :=
      ih (fun x hx => hmem x (List.mem_cons_of_mem _ hx)) (i + 1)
        ((addr + chunk_size target) % 2 ^ 32)
    refine ⟨(addr, bs.take (chunk_size target) ++
        List.replicate (chunk_size target - chunk_size target) 0) :: ws,
      (if wOk i then [] else [addr]) ++ warns, ?_, ?_⟩
    · rw [List.cons_append, flashLoop]
      simp only [hbs, Nat.min_self]
      rw [if_pos hC, if_neg (lt_irrefl _)]
      rw [hrec]
    · simp only [List.length_cons, hlen]

/-- Closed instance of `flash_file_read_error`: one full 48-byte read, then a
read error; the loop panics having written exactly one chunk. -/
theorem flash_file_read_error_witness :
    ∃ ws warns,
      flash_file (fun _ => true) AP2Target.McuMain 0
          ([ReadResult.bytes (List.replicate 48 7)] ++
            ReadResult.ioErr :: []) =
        LoopOut.panicked ws warns ∧
      ws.length = [ReadResult.bytes (List.replicate 48 7)].length :=
  flash_file_read_error (fun _ => true) AP2Target.McuMain 0
    [ReadResult.bytes (List.replicate 48 7)] []
    (by
      intro r hr
      simp only [List.mem_singleton] at hr
      subst hr
      exact ⟨List.replicate 48 7, rfl, by decide⟩)

/-- Claim C2: over a well-behaved image source of length `L` (every read
returns the full requested amount until the source is exhausted),
`flash_file` with chunk size `C = chunk_size target` — 32 exactly when the
target is the BLE MCU, 48 otherwise — performs exactly `L / C` chunk writes
when `C` divides `L` and `L / C + 1` (that is, `ceil(L/C)`) otherwise, so in
particular no trailing empty write; the writes are at addresses `base`,
`base + C`, `base + 2C`, …; every transmitted chunk buffer is exactly `C`
bytes, namely the image bytes at that offset zero-padded to `C`; and the
final value of the address counter is `base + L`, i.e. the total advance
equals the bytes actually read. -/
theorem flash_file_chunking (wOk : Nat → Bool) (target : AP2Target)
    (base : Nat) (image : List Nat)
    (hov : base + image.length < 2 ^ 32) :
    (chunk_size target = if target = AP2Target.McuBle then 32 else 48) ∧
    ∃ ws warns,
      flash_file wOk target base
          (wellBehavedReads (chunk_size target) image) =
        LoopOut.done ws warns (base + image.length) ∧
      ws.length = (if image.length % chunk_size target = 0
        then image.length / chunk_size target
        else image.length / chunk_size target + 1) ∧
      (∀ j (hj : j < ws.length),
        ws[j] = (base + j * chunk_size target,
          (image.drop (j * chunk_size target)).take (chunk_size target) ++
            List.replicate (chunk_size target -
              min (chunk_size target)
                (image.length - j * chunk_size target)) 0)) ∧
      (∀ j (hj : j < ws.length), (ws[j]).2.length = chunk_size target) := by
  have hC : 0 < chunk_size target := chunk_size_pos target
  refine ⟨by cases target <;> simp [chunk_size], ?_⟩
  refine ⟨expectedWrites (chunk_size target) base image,
    expectedWarnings wOk (chunk_size target) 0 base image, ?_, ?_, ?_, ?_⟩
  · exact flashLoop_wellBehaved (chunk_size target) wOk image.length image
      le_rfl 0 base hC hov
  · exact expectedWrites_length (chunk_size target) hC image.length image
      le_rfl base
  · intro j hj
    exact expectedWrites_get (chunk_size target) hC image.length image
      le_rfl base j hj
  · intro j hj
    rw [expectedWrites_get (chunk_size target) hC image.length image
      le_rfl base j hj]
    simp only [List.length_append, List.length_take, List.length_drop,
      List.length_replicate]
    omega

/-- Closed instance of `flash_file_chunking`: a 100-byte image flashed to the
Main MCU (chunk size 48) from base 0: three writes, at addresses 0, 48, 96,
each buffer 48 bytes, final address 100. -/
theorem flash_file_chunking_witness :
    (0 + (List.replicate 100 1 : List Nat).length < 2 ^ 32) ∧
    ((chunk_size AP2Target.McuMain =
      if AP2Target.McuMain = AP2Target.McuBle then 32 else 48) ∧
    ∃ ws warns,
      flash_file (fun _ => true) AP2Target.McuMain 0
          (wellBehavedReads (chunk_size AP2Target.McuMain)
            (List.replicate 100 1)) =
        LoopOut.done ws warns
          (0 + (List.replicate 100 1 : List Nat).length) ∧
      ws.length = (if (List.replicate 100 1 : List Nat).length %
          chunk_size AP2Target.McuMain = 0
        then (List.replicate 100 1 : List Nat).length /
          chunk_size AP2Target.McuMain
        else (List.replicate 100 1 : List Nat).length /
          chunk_size AP2Target.McuMain + 1) ∧
      (∀ j (hj : j < ws.length),
        ws[j] = (0 + j * chunk_size AP2Target.McuMain,
          ((List.replicate 100 1 : List Nat).drop
              (j * chunk_size AP2Target.McuMain)).take
              (chunk_size AP2Target.McuMain) ++
            List.replicate (chunk_size AP2Target.McuMain -
              min (chunk_size AP2Target.McuMain)
                ((List.replicate 100 1 : List Nat).length -
                  j * chunk_size AP2Target.McuMain)) 0)) ∧
      (∀ j (hj : j < ws.length),
        (ws[j]).2.length = chunk_size AP2Target.McuMain)) :=
  ⟨by norm_num,
   flash_file_chunking (fun _ => true) AP2Target.McuMain 0
     (List.replicate 100 1) (by norm_num)⟩

theorem flash_firmware_outcome_cases (devs : List DeviceInfo) (t : Transport)
    (target : AP2Target) (base : Nat) (rs : List ReadResult) (boot : Bool) :
    (flash_firmware devs t target base rs boot).outcome = Outcome.ok ∨
    (flash_firmware devs t target base rs boot).outcome =
      Outcome.err AP2FlashError.USBError ∨
    (flash_firmware devs t target base rs boot).outcome =
      Outcome.panicked PanicMsg.noDeviceFound ∨
    (flash_firmware devs t target base rs boot).outcome =
      Outcome.panicked PanicMsg.unableToOpenDevice ∨
    (flash_firmware devs t target base rs boot).outcome =
      Outcome.panicked PanicMsg.readFileFailure ∨
    (flash_firmware devs t target base rs boot).outcome = Outcome.stuck := by
  unfold flash_firmware
  cases hfd : (fetch_devices devs).2 with
  | none => simp [hfd]
  | some d =>
    simp only [hfd]
    by_cases hopen : t.openOk = false
    · simp [hopen]
    · simp only [eq_self_iff_true, hopen, if_false]
      by_cases herase : t.eraseOk = false
      · simp [herase]
      · simp only [herase, if_false]
        cases hloop : flash_file t.writeOk target base rs with
        | stuck => simp
        | panicked ws warns => simp
        | done ws warns fa =>
          by_cases hflag : t.flagOk = false
          · simp [hflag]
          · simp only [hflag, if_false]
            cases boot <;> simp [boot_device]

/-- Claim C3 counterexample: one flashable C18 device present, transport
whose erase exchange fails; the run returns `USBError`, not the claimed
`EraseError` — the source maps the erase failure to `AP2FlashError::USBError`
(line 89), and the `EraseError` variant is never constructed anywhere. -/
theorem flash_firmware_erase_error_counterexample :
    (flash_firmware [⟨0x04d9, 0x8009, 0, 0⟩]
        ⟨true, false, fun _ => true, true, true⟩
        AP2Target.McuMain 0 [] false).outcome =
      Outcome.err AP2FlashError.USBError ∧
    (flash_firmware [⟨0x04d9, 0x8009, 0, 0⟩]
        ⟨true, false, fun _ => true, true, true⟩
        AP2Target.McuMain 0 [] false).outcome ≠
      Outcome.err AP2FlashError.EraseError := by
  constructor <;> decide

/-- Claim C3 amended: if the erase exchange fails, `flash_firmware` aborts
before issuing any write-memory or validity-flag command — the trace holds
the erase command alone — and returns the error `USBError` (the source maps
an erase failure to `USBError`, not `EraseError`). -/
theorem flash_firmware_erase_failure (devs : List DeviceInfo) (t : Transport)
    (target : AP2Target) (base : Nat) (rs : List ReadResult) (boot : Bool)
    (hdev : (fetch_devices devs).2.isSome = true)
    (hopen : t.openOk = true)
    (herase : t.eraseOk = false) :
    (flash_firmware devs t target base rs boot).outcome =
      Outcome.err AP2FlashError.USBError ∧
    (flash_firmware devs t target base rs boot).trace =
      [Event.eraseCmd target (erase_payload base)] ∧
    ∀ tp p, Event.writeCmd tp p ∉ (flash_firmware devs t target base rs boot).trace ∧
      Event.flagCmd tp p ∉ (flash_firmware devs t target base rs boot).trace := by
  obtain ⟨d, hd⟩ := Option.isSome_iff_exists.mp hdev
  have hrun : flash_firmware devs t target base rs boot =
      ⟨[Event.eraseCmd target (erase_payload base)], [],
        Outcome.err AP2FlashError.USBError⟩ := by
    unfold flash_firmware
    simp [hd, hopen, herase]
  rw [hrun]
  refine ⟨rfl, rfl, ?_⟩
  intro tp p
  simp

/-- Closed instance of `flash_firmware_erase_failure` at the inputs of the
counterexample. -/
theorem flash_firmware_erase_failure_witness :
    (flash_firmware [⟨0x04d9, 0x8009, 0, 0⟩]
        ⟨true, false, fun _ => true, true, true⟩
        AP2Target.McuMain 0 [] false).outcome =
      Outcome.err AP2FlashError.USBError ∧
    (flash_firmware [⟨0x04d9, 0x8009, 0, 0⟩]
        ⟨true, false, fun _ => true, true, true⟩
        AP2Target.McuMain 0 [] false).trace =
      [Event.eraseCmd AP2Target.McuMain (erase_payload 0)] ∧
    ∀ tp p, Event.writeCmd tp p ∉ (flash_firmware [⟨0x04d9, 0x8009, 0, 0⟩]
        ⟨true, false, fun _ => true, true, true⟩
        AP2Target.McuMain 0 [] false).trace ∧
      Event.flagCmd tp p ∉ (flash_firmware [⟨0x04d9, 0x8009, 0, 0⟩]
        ⟨true, false, fun _ => true, true, true⟩
        AP2Target.McuMain 0 [] false).trace :=
  flash_firmware_erase_failure [⟨0x04d9, 0x8009, 0, 0⟩]
    ⟨true, false, fun _ => true, true, true⟩
    AP2Target.McuMain 0 [] false (by decide) rfl rfl

/-- Claim C8 counterexample: with no device present at either discovery the
run does not return the error value `NoDeviceFound` — it panics (the source's
`.expect("No device found.")`, line 77; `NoDeviceFound` is never
constructed). -/
theorem flash_firmware_no_device_counterexample :
    (flash_firmware [] ⟨true, true, fun _ => true, true, true⟩
        AP2Target.McuMain 0 [] false).outcome =
      Outcome.panicked PanicMsg.noDeviceFound ∧
    (flash_firmware [] ⟨true, true, fun _ => true, true, true⟩
        AP2Target.McuMain 0 [] false).outcome ≠
      Outcome.err AP2FlashError.NoDeviceFound := by
  constructor <;> decide

/-- Claim C8 amended: if after the second device discovery still no flashable
candidate exists, the run aborts with the "No device found." panic, before
any command is issued; the error value `NoDeviceFound` is never returned by
any run. -/
theorem flash_firmware_no_device (devs : List DeviceInfo) (t : Transport)
    (target : AP2Target) (base : Nat) (rs : List ReadResult) (boot : Bool)
    (h : (fetch_devices devs).2 = none) :
    flash_firmware devs t target base rs boot =
      ⟨[], [], Outcome.panicked PanicMsg.noDeviceFound⟩ ∧
    ∀ (devs2 : List DeviceInfo) (t2 : Transport) (target2 : AP2Target)
      (base2 : Nat) (rs2 : List ReadResult) (boot2 : Bool),
      (flash_firmware devs2 t2 target2 base2 rs2 boot2).outcome ≠
        Outcome.err AP2FlashError.NoDeviceFound := by
  constructor
  · unfold flash_firmware
    simp [h]
  · intro devs2 t2 target2 base2 rs2 boot2
    rcases flash_firmware_outcome_cases devs2 t2 target2 base2 rs2 boot2 with
      hc | hc | hc | hc | hc | hc <;> simp [hc]

/-- Closed instance of `flash_firmware_no_device` with an empty device
list. -/
theorem flash_firmware_no_device_witness :
    flash_firmware [] ⟨true, true, fun _ => true, true, true⟩
        AP2Target.McuMain 0 [] false =
      ⟨[], [], Outcome.panicked PanicMsg.noDeviceFound⟩ ∧
    ∀ (devs2 : List DeviceInfo) (t2 : Transport) (target2 : AP2Target)
      (base2 : Nat) (rs2 : List ReadResult) (boot2 : Bool),
      (flash_firmware devs2 t2 target2 base2 rs2 boot2).outcome ≠
        Outcome.err AP2FlashError.NoDeviceFound :=
  flash_firmware_no_device [] ⟨true, true, fun _ => true, true, true⟩
    AP2Target.McuMain 0 [] false rfl

/-- Claim C9 counterexample: two flashable candidates (two C18 keyboards) are
present; discovery returns the first one and a fully successful run ends
`ok` — `MultipleDeviceFound` is never surfaced, the wrong-device ambiguity is
resolved silently by enumeration order. -/
theorem fetch_devices_multiple_counterexample :
    flashable ⟨0x04d9, 0x8009, 0, 0⟩ = true ∧
    flashable ⟨0x04d9, 0x8009, 0, 1⟩ = true ∧
    (fetch_devices [⟨0x04d9, 0x8009, 0, 0⟩, ⟨0x04d9, 0x8009, 0, 1⟩]).2 =
      some ⟨0x04d9, 0x8009, 0, 0⟩ ∧
    (flash_firmware [⟨0x04d9, 0x8009, 0, 0⟩, ⟨0x04d9, 0x8009, 0, 1⟩]
        ⟨true, true, fun _ => true, true, true⟩ AP2Target.McuMain 0
        [ReadResult.bytes []] false).outcome = Outcome.ok ∧
    (flash_firmware [⟨0x04d9, 0x8009, 0, 0⟩, ⟨0x04d9, 0x8009, 0, 1⟩]
        ⟨true, true, fun _ => true, true, true⟩ AP2Target.McuMain 0
        [ReadResult.bytes []] false).outcome ≠
      Outcome.err AP2FlashError.MultipleDeviceFound := by
  refine ⟨rfl, rfl, rfl, ?_, ?_⟩ <;> decide

/-- Claim C9 amended: when at least one flashable candidate is among the
vendor-matching devices, discovery silently selects one (the first in
enumeration order) instead of erroring, and no run ever surfaces
`MultipleDeviceFound` — even with several flashable candidates present. -/
theorem fetch_devices_first_flashable (devs : List DeviceInfo)
    (d : DeviceInfo)
    (hd : d ∈ devs.filter (fun dev => dev.vendor_id == ANNEPRO2_VID))
    (hf : flashable d = true) :
    (∃ d0, (fetch_devices devs).2 = some d0 ∧ flashable d0 = true ∧
      d0 ∈ devs.filter (fun dev => dev.vendor_id == ANNEPRO2_VID)) ∧
    ∀ (t : Transport) (target : AP2Target) (base : Nat)
      (rs : List ReadResult) (boot : Bool),
      (flash_firmware devs t target base rs boot).outcome ≠
        Outcome.err AP2FlashError.MultipleDeviceFound := by
  constructor
  · have hsome : ((devs.filter
        (fun dev => dev.vendor_id == ANNEPRO2_VID)).find? flashable).isSome :=
      List.find?_isSome.mpr ⟨d, hd, hf⟩
    obtain ⟨d0, hd0⟩ := Option.isSome_iff_exists.mp hsome
    exact ⟨d0, hd0, List.find?_some hd0, List.mem_of_find?_eq_some hd0⟩
  · intro t target base rs boot
    rcases flash_firmware_outcome_cases devs t target base rs boot with
      hc | hc | hc | hc | hc | hc <;> simp [hc]

/-- Closed instance of `fetch_devices_first_flashable` with two flashable
candidates. -/
theorem fetch_devices_first_flashable_witness :
    (∃ d0, (fetch_devices
        [⟨0x04d9, 0x8009, 0, 0⟩, ⟨0x04d9, 0x8009, 0, 1⟩]).2 = some d0 ∧
      flashable d0 = true ∧
      d0 ∈ ([⟨0x04d9, 0x8009, 0, 0⟩, ⟨0x04d9, 0x8009, 0, 1⟩] :
          List DeviceInfo).filter
        (fun dev => dev.vendor_id == ANNEPRO2_VID)) ∧
    ∀ (t : Transport) (target : AP2Target) (base : Nat)
      (rs : List ReadResult) (boot : Bool),
      (flash_firmware [⟨0x04d9, 0x8009, 0, 0⟩, ⟨0x04d9, 0x8009, 0, 1⟩]
          t target base rs boot).outcome ≠
        Outcome.err AP2FlashError.MultipleDeviceFound :=
  fetch_devices_first_flashable
    [⟨0x04d9, 0x8009, 0, 0⟩, ⟨0x04d9, 0x8009, 0, 1⟩]
    ⟨0x04d9, 0x8009, 0, 1⟩ (by decide) (by decide)

/-- Claim C5 counterexample: with erase and flag succeeding, boot requested
and the boot write failing, the run still returns success — the source's
`boot_device` prints the write error and returns `Ok(())` unconditionally
(lines 203-209), so no `FlashError` (nor any error) is ever produced there;
and a failing validity-flag write yields `USBError`, not `FlashError`
(line 94). -/
theorem flash_firmware_flag_boot_counterexample :
    (flash_firmware [⟨0x04d9, 0x8009, 0, 0⟩]
        ⟨true, true, fun _ => true, true, false⟩
        AP2Target.McuMain 0 [ReadResult.bytes []] true).outcome =
      Outcome.ok ∧
    (flash_firmware [⟨0x04d9, 0x8009, 0, 0⟩]
        ⟨true, true, fun _ => true, true, false⟩
        AP2Target.McuMain 0 [ReadResult.bytes []] true).outcome ≠
      Outcome.err AP2FlashError.FlashError ∧
    (flash_firmware [⟨0x04d9, 0x8009, 0, 0⟩]
        ⟨true, true, fun _ => true, false, true⟩
        AP2Target.McuMain 0 [ReadResult.bytes []] false).outcome =
      Outcome.err AP2FlashError.USBError := by
  refine ⟨?_, ?_, ?_⟩ <;> decide

/-- Claim C5 amended: if the validity-flag write fails the run aborts with
`USBError` (not `FlashError`) and no boot command is issued; if the flag
write succeeds the run returns success even when boot was requested and the
boot write fails, because `boot_device` swallows its transport error. -/
theorem flash_firmware_flag_boot (devs : List DeviceInfo) (t : Transport)
    (target : AP2Target) (base : Nat) (rs : List ReadResult) (boot : Bool)
    (hdev : (fetch_devices devs).2.isSome = true)
    (hopen : t.openOk = true) (herase : t.eraseOk = true)
    (hloop : ∃ ws warns fa,
      flash_file t.writeOk target base rs = LoopOut.done ws warns fa) :
    (t.flagOk = false →
      (flash_firmware devs t target base rs boot).outcome =
        Outcome.err AP2FlashError.USBError ∧
      ∀ raw, Event.bootCmd raw ∉ (flash_firmware devs t target base rs boot).trace) ∧
    (t.flagOk = true →
      (flash_firmware devs t target base rs boot).outcome = Outcome.ok) := by
  obtain ⟨d, hd⟩ := Option.isSome_iff_exists.mp hdev
  obtain ⟨ws, warns, fa, hloop⟩ := hloop
  constructor
  · intro hflag
    have hrun : flash_firmware devs t target base rs boot =
        ⟨Event.eraseCmd target (erase_payload base) ::
          (ws.map (fun w => Event.writeCmd target (write_chunk_payload w.1 w.2)) ++
            [Event.flagCmd AP2Target.McuMain (ap_flag_payload 2)]),
          warns, Outcome.err AP2FlashError.USBError⟩ := by
      unfold flash_firmware
      simp [hd, hopen, herase, hloop, hflag]
    rw [hrun]
    refine ⟨rfl, ?_⟩
    intro raw
    simp
  · intro hflag
    unfold flash_firmware
    cases boot <;> simp [hd, hopen, herase, hloop, hflag, boot_device]

/-- Closed instance of `flash_firmware_flag_boot`: one C18 device, empty
image, flag exchange failing. -/
theorem flash_firmware_flag_boot_witness :
    ((⟨true, true, fun _ => true, false, true⟩ : Transport).flagOk = false →
      (flash_firmware [⟨0x04d9, 0x8009, 0, 0⟩]
          ⟨true, true, fun _ => true, false, true⟩
          AP2Target.McuMain 0 [ReadResult.bytes []] true).outcome =
        Outcome.err AP2FlashError.USBError ∧
      ∀ raw, Event.bootCmd raw ∉ (flash_firmware [⟨0x04d9, 0x8009, 0, 0⟩]
          ⟨true, true, fun _ => true, false, true⟩
          AP2Target.McuMain 0 [ReadResult.bytes []] true).trace) ∧
    ((⟨true, true, fun _ => true, false, true⟩ : Transport).flagOk = true →
      (flash_firmware [⟨0x04d9, 0x8009, 0, 0⟩]
          ⟨true, true, fun _ => true, false, true⟩
          AP2Target.McuMain 0 [ReadResult.bytes []] true).outcome =
        Outcome.ok) :=
  flash_firmware_flag_boot [⟨0x04d9, 0x8009, 0, 0⟩]
    ⟨true, true, fun _ => true, false, true⟩
    AP2Target.McuMain 0 [ReadResult.bytes []] true (by decide) rfl rfl
    ⟨[], [], 0, by decide⟩

/-- Claim C4: chunk-write failures are non-fatal: with a well-behaved image
source, whatever subset of chunk exchanges fails (`t.writeOk` arbitrary), the
run ends in success when erase and flag succeed, the validity-flag command is
still issued after the full write sequence — every chunk still attempted, in
order, at the advanced addresses `base + j·C` — and each failed chunk's
address is recorded as a warning. -/
theorem flash_firmware_chunk_failures_nonfatal (devs : List DeviceInfo)
    (t : Transport) (target : AP2Target) (base : Nat) (image : List Nat)
    (boot : Bool)
    (hdev : (fetch_devices devs).2.isSome = true)
    (hopen : t.openOk = true) (herase : t.eraseOk = true)
    (hflag : t.flagOk = true)
    (hov : base + image.length < 2 ^ 32) :
    (flash_firmware devs t target base
        (wellBehavedReads (chunk_size target) image) boot).outcome =
      Outcome.ok ∧
    (flash_firmware devs t target base
        (wellBehavedReads (chunk_size target) image) boot).trace =
      [Event.eraseCmd target (erase_payload base)] ++
        (expectedWrites (chunk_size target) base image).map
          (fun w => Event.writeCmd target (write_chunk_payload w.1 w.2)) ++
        [Event.flagCmd AP2Target.McuMain (ap_flag_payload 2)] ++
        (if boot then [Event.bootCmd boot_raw] else []) ∧
    (∀ j (hj : j < (expectedWrites (chunk_size target) base image).length),
      t.writeOk j = false →
      base + j * chunk_size target ∈
        (flash_firmware devs t target base
          (wellBehavedReads (chunk_size target) image) boot).warnings) := by
  obtain ⟨d, hd⟩ := Option.isSome_iff_exists.mp hdev
  have hC : 0 < chunk_size target := chunk_size_pos target
  have hloop : flash_file t.writeOk target base
      (wellBehavedReads (chunk_size target) image) =
      LoopOut.done (expectedWrites (chunk_size target) base image)
        (expectedWarnings t.writeOk (chunk_size target) 0 base image)
        (base + image.length) :=
    flashLoop_wellBehaved (chunk_size target) t.writeOk image.length image
      le_rfl 0 base hC hov
  have hrun : flash_firmware devs t target base
      (wellBehavedReads (chunk_size target) image) boot =
      ⟨[Event.eraseCmd target (erase_payload base)] ++
        (expectedWrites (chunk_size target) base image).map
          (fun w => Event.writeCmd target (write_chunk_payload w.1 w.2)) ++
        [Event.flagCmd AP2Target.McuMain (ap_flag_payload 2)] ++
        (if boot then [Event.bootCmd boot_raw] else []),
       expectedWarnings t.writeOk (chunk_size target) 0 base image,
       Outcome.ok⟩ := by
    unfold flash_firmware
    cases boot <;> simp [hd, hopen, herase, hloop, hflag, boot_device]
  rw [hrun]
  refine ⟨rfl, rfl, ?_⟩
  intro j hj hw
  exact expectedWarnings_mem (chunk_size target) t.writeOk hC image.length
    image le_rfl 0 base j hj (by simpa using hw)

/-- Closed instance of `flash_firmware_chunk_failures_nonfatal`: every chunk
write fails (`writeOk` constantly false) over a 100-byte image, and the run
still succeeds. -/
theorem flash_firmware_chunk_failures_nonfatal_witness :
    (flash_firmware [⟨0x04d9, 0x8009, 0, 0⟩]
        ⟨true, true, fun _ => false, true, true⟩ AP2Target.McuMain 0
        (wellBehavedReads (chunk_size AP2Target.McuMain)
          (List.replicate 100 1)) false).outcome = Outcome.ok ∧
    (flash_firmware [⟨0x04d9, 0x8009, 0, 0⟩]
        ⟨true, true, fun _ => false, true, true⟩ AP2Target.McuMain 0
        (wellBehavedReads (chunk_size AP2Target.McuMain)
          (List.replicate 100 1)) false).trace =
      [Event.eraseCmd AP2Target.McuMain (erase_payload 0)] ++
        (expectedWrites (chunk_size AP2Target.McuMain) 0
          (List.replicate 100 1)).map
          (fun w => Event.writeCmd AP2Target.McuMain
            (write_chunk_payload w.1 w.2)) ++
        [Event.flagCmd AP2Target.McuMain (ap_flag_payload 2)] ++
        (if false then [Event.bootCmd boot_raw] else []) ∧
    (∀ j (hj : j < (expectedWrites (chunk_size AP2Target.McuMain) 0
        (List.replicate 100 1)).length),
      (⟨true, true, fun _ => false, true, true⟩ : Transport).writeOk j = false →
      0 + j * chunk_size AP2Target.McuMain ∈
        (flash_firmware [⟨0x04d9, 0x8009, 0, 0⟩]
          ⟨true, true, fun _ => false, true, true⟩ AP2Target.McuMain 0
          (wellBehavedReads (chunk_size AP2Target.McuMain)
            (List.replicate 100 1)) false).warnings) :=
  flash_firmware_chunk_failures_nonfatal [⟨0x04d9, 0x8009, 0, 0⟩]
    ⟨true, true, fun _ => false, true, true⟩ AP2Target.McuMain 0
    (List.replicate 100 1) false (by decide) rfl rfl rfl (by norm_num)
